import Mathlib

/-!
Verification of the template-to-message-list compiler of this repository
(the Template Parser, Variable Resolver and Message Compiler of spec §4).
The pipeline implementation (`BasePrompt.messages`, `format_template` and
their helpers) is not vendored under `src/` — only its tests
(`tests/base/test_prompts.py`, `tests/core/base/_utils/test_format_template.py`)
and callers are — so the definitions below are modelled from the spec's
§3–§4 component contracts and checked against the behaviour the vendored
tests pin down.
-/

set_option maxRecDepth 4000

namespace Mirascope

/-- Whitespace characters stripped by per-segment trimming (spec §4.1/§4.3). -/
def isWspace (c : Char) : Bool := c = ' ' || c = '\n' || c = '\t' || c = '\r'

/-- Drop leading and trailing whitespace from a character list. -/
def trimChars (cs : List Char) : List Char :=
  ((cs.dropWhile isWspace).reverse.dropWhile isWspace).reverse

/-- Trim a string's leading and trailing whitespace. -/
def strTrim (s : String) : String := ⟨trimChars s.data⟩

/-- One step of line splitting: a newline opens a fresh first line, any
other character is prepended to the current first line. -/
def consLine (c : Char) : List (List Char) → List (List Char)
  | [] => [[c]]
  | l :: ls => if c = '\n' then [] :: l :: ls else (c :: l) :: ls

/-- Split a character list at newline characters into lines. -/
def splitLinesChars : List Char → List (List Char)
  | [] => [[]]
  | c :: cs => consLine c (splitLinesChars cs)

/-- Join lines back with newline separators. -/
def joinLinesChars : List (List Char) → List Char
  | [] => []
  | [l] => l
  | l :: ls => l ++ '\n' :: joinLinesChars ls

/-- Take the characters strictly before the first occurrence of `stop`,
returning them with the remainder after `stop`; `none` if `stop` is absent. -/
def takeUntil (stop : Char) : List Char → Option (List Char × List Char)
  | [] => none
  | c :: cs =>
    if c = stop then some ([], cs)
    else
      match takeUntil stop cs with
      | none => none
      | some (w, r) => some (c :: w, r)

/-- Modelled from the spec: the fixed recognized role-marker set of §3
("SYSTEM, USER, ASSISTANT, MODEL, TOOL"); the source file declaring it is
not under `src/`. -/
def recognizedRoles : List String := ["SYSTEM", "USER", "ASSISTANT", "MODEL", "TOOL"]

/-- The lowercase role names as they appear in compiled Messages (spec §6). -/
def recognizedRoleNames : List String := ["system", "user", "assistant", "model", "tool"]

/-- Uppercased form of a candidate role-marker word. -/
def upperName (w : List Char) : String := ⟨w.map Char.toUpper⟩

/-- Lowercased form of a candidate role-marker word. -/
def lowerName (w : List Char) : String := ⟨w.map Char.toLower⟩

/-- Is `w` a nonempty purely alphabetic word? -/
def isAlphaWord (w : List Char) : Bool := !w.isEmpty && w.all Char.isAlpha

/-- Is `w` a nonempty all-caps word? -/
def isAllCapsWord (w : List Char) : Bool := !w.isEmpty && w.all Char.isUpper

/-- Classification of a template line by the parser (spec §4.1). -/
inductive LineKind where
  /-- A line starting with a recognized role marker `ROLE:`; carries the
  lowercase role and the rest of the line after the colon and its padding. -/
  | marker (role : String) (rest : List Char)
  /-- A line starting with an all-caps word plus colon that is not in the
  recognized role set — a fatal `TemplateFormatError` (spec §4.1). -/
  | badMarker (word : String)
  /-- Ordinary content. -/
  | plain
deriving DecidableEq

/-- Modelled from the spec: line classification of the Template Parser
(§4.1) — a line matching `^ROLE:` case-insensitively with `ROLE` in the
recognized set starts a Segment; an all-caps word plus colon outside the
set is a fatal format error; everything else is content. The parser source
is not under `src/`. -/
def classifyLine (line : List Char) : LineKind :=
  match takeUntil ':' line with
  | none => .plain
  | some (w, rest) =>
    if isAlphaWord w && recognizedRoles.contains (upperName w) then
      .marker (lowerName w) (rest.dropWhile (fun c => c = ' ' || c = '\t'))
    else if isAllCapsWord w then .badMarker ⟨w⟩
    else .plain

/-- Boolean form of "this line is ordinary content". -/
def isPlainLine (ln : List Char) : Bool :=
  match classifyLine ln with
  | .plain => true
  | _ => false

/-- Boolean form of "this line is a malformed role marker". -/
def isBadLine (ln : List Char) : Bool :=
  match classifyLine ln with
  | .badMarker _ => true
  | _ => false

/-- A (role, raw_text) pair produced by splitting a Template (spec §3). -/
structure Segment where
  role : String
  raw_text : String
deriving DecidableEq

/-- The output unit: a (role, content) pair (spec §3). -/
structure Message where
  role : String
  content : String
deriving DecidableEq

/-- The core pipeline's error taxonomy (spec §7): malformed role marker,
or a referenced name/path absent from the bindings. -/
inductive TemplateError where
  | templateFormatError (marker : String)
  | missingVariableError (path : String)
deriving DecidableEq

/-- Trimmed, newline-joined text of a segment's accumulated lines. -/
def mkText (lns : List (List Char)) : String := ⟨trimChars (joinLinesChars lns)⟩

/-- Close the current segment: the implicit leading "user" segment is
emitted only when its trimmed text is nonempty (spec §4.1: "text before
the first match (if any) becomes a Segment"). -/
def closeSeg (role : String) (lns : List (List Char)) (implicitSeg : Bool) : List Segment :=
  if implicitSeg = true ∧ mkText lns = "" then [] else [⟨role, mkText lns⟩]

/-- Line-by-line scan of the Template Parser (spec §4.1): a recognized
marker starts a new Segment, a malformed marker aborts with an error, and
content lines append to the current Segment. -/
def parseLinesAux : List (List Char) → String → List (List Char) → Bool →
    Except TemplateError (List Segment)
  | [], role, cur, imp => .ok (closeSeg role cur imp)
  | ln :: rest, role, cur, imp =>
    match classifyLine ln with
    | .badMarker w => .error (.templateFormatError w)
    | .marker r first =>
      match parseLinesAux rest r [first] false with
      | .error e => .error e
      | .ok tail => .ok (closeSeg role cur imp ++ tail)
    | .plain => parseLinesAux rest role (cur ++ [ln]) imp

/-- Modelled from the spec: `parse(template) -> ordered sequence of Segment`
(§4.1); the Template Parser source is not under `src/`. -/
def parse (template : String) : Except TemplateError (List Segment) :=
  parseLinesAux (splitLinesChars template.data) "user" [] true

/-- Modelled from the spec: an Attribute Binding's value (§3) — an
arbitrary caller-supplied value: a string, an integer, `None`, a sequence,
or a nested attribute/key container for dotted-path lookups. The binding
source is not under `src/`. -/
inductive Value where
  | str (s : String)
  | int (i : Int)
  | null
  | seq (items : List Value)
  | obj (fields : List (String × Value))

/-- Scalar rendering rules of the Variable Resolver (spec §4.2): strings
render verbatim, other values via their default string conversion, `None`
as the empty string. Direct rendering of nested containers is not
exercised by the pipeline and is kept abstract. -/
def renderScalar : Value → String
  | .str s => s
  | .int i => toString i
  | .null => ""
  | .seq _ => ""
  | .obj _ => "<object>"

/-- Modelled from the spec: rendering of a bound value (§4.2) — a sequence
renders as the ", "-joined string of its rendered elements (recursive one
level); scalars render by `renderScalar`. The resolver source is not under
`src/`. -/
def render : Value → String
  | .seq items => String.intercalate ", " (items.map renderScalar)
  | v => renderScalar v

/-- Modelled from the spec: rendering under an optional format spec (§4.2)
— a format spec may configure the separator used to join a sequence;
otherwise rendering is the default. -/
def renderWithSpec : Option String → Value → String
  | none, v => render v
  | some sp, Value.seq items => String.intercalate sp (items.map renderScalar)
  | some _, v => render v

/-- Split a dotted path such as "book.title" at its dots. -/
def splitPathAux : List Char → List Char → List String
  | [], acc => [⟨acc.reverse⟩]
  | c :: cs, acc => if c = '.' then ⟨acc.reverse⟩ :: splitPathAux cs [] else splitPathAux cs (c :: acc)

/-- Split a dotted placeholder path into its components. -/
def splitPath (s : String) : List String := splitPathAux s.data []

/-- Successive attribute/key lookups along a dotted path (spec §4.2);
a missing intermediate key yields `none`. -/
def lookupValue : Value → List String → Option Value
  | v, [] => some v
  | Value.obj fields, k :: ks =>
    match fields.lookup k with
    | none => none
    | some v => lookupValue v ks
  | _, _ :: _ => none

/-- Resolve a dotted path against the bindings: the top-level name is
looked up in the bindings, then the rest of the path inside its value. -/
def resolvePath (b : List (String × Value)) : List String → Option Value
  | [] => none
  | n :: ks =>
    match b.lookup n with
    | none => none
    | some v => lookupValue v ks

/-- Modelled from the spec: resolving one extracted placeholder (§4.2) —
an absent top-level name or a missing intermediate key fails with
`MissingVariableError` naming the full path; otherwise the value renders
under the placeholder's format spec. The resolver source is not under
`src/`. -/
def resolveVar (b : List (String × Value)) (v : String × Option String) :
    Except TemplateError String :=
  match resolvePath b (splitPath v.1) with
  | none => .error (.missingVariableError v.1)
  | some val => .ok (renderWithSpec v.2 val)

/-- The placeholder text a variable was extracted from (without braces). -/
def varKey (v : String × Option String) : String :=
  match v.2 with
  | none => v.1
  | some sp => v.1 ++ ":" ++ sp

/-- Modelled from the spec: `resolve(variables, bindings)` (§4.2) —
resolves each extracted variable in order into a mapping from placeholder
text to rendered string, failing on the first missing variable. -/
def resolveAll : List (String × Option String) → List (String × Value) →
    Except TemplateError (List (String × String))
  | [], _ => .ok []
  | v :: vs, b =>
    match resolveVar b v with
    | .error e => .error e
    | .ok r =>
      match resolveAll vs b with
      | .error e => .error e
      | .ok rest => .ok ((varKey v, r) :: rest)

/-- Split the text inside a `{...}` placeholder into its dotted path and
optional format spec after a colon (spec §4.2). -/
def parseVar (inner : List Char) : String × Option String :=
  match takeUntil ':' inner with
  | none => (⟨inner⟩, none)
  | some (p, sp) => (⟨p⟩, some ⟨sp⟩)

/-- Scanner state machine for `extract_variables`: outside a placeholder
(`inside = false`) it looks for `\x7b`; inside one it accumulates the inner
text until `\x7d`. An unclosed placeholder extracts nothing. -/
def extractAux : List Char → Bool → List Char → List (String × Option String)
  | [], _, _ => []
  | c :: cs, false, _ =>
    if c = '{' then extractAux cs true [] else extractAux cs false []
  | c :: cs, true, acc =>
    if c = '}' then parseVar acc.reverse :: extractAux cs false []
    else extractAux cs true (c :: acc)

/-- Modelled from the spec: `extract_variables(text)` (§4.2) — the ordered
(name, format_spec) pairs of the placeholders of `text`. The extractor
source is not under `src/`. -/
def extractVars (s : String) : List (String × Option String) :=
  extractAux s.data false []

/-- Substitution state machine: copies characters, replacing each closed
`\x7b...\x7d` placeholder by its entry in the resolved mapping (placeholders
absent from the mapping are left verbatim; an unclosed one is emitted
as-is). -/
def substAux (m : List (String × String)) : List Char → Bool → List Char → List Char
  | [], false, _ => []
  | [], true, acc => '{' :: acc.reverse
  | c :: cs, false, _ =>
    if c = '{' then substAux m cs true [] else c :: substAux m cs false []
  | c :: cs, true, acc =>
    if c = '}' then
      (match m.lookup (⟨acc.reverse⟩ : String) with
       | some r => r.data
       | none => '{' :: acc.reverse ++ ['}']) ++ substAux m cs false []
    else substAux m cs true (c :: acc)

/-- Substitute resolved placeholder values into a text. -/
def substitute (cs : List Char) (m : List (String × String)) : List Char :=
  substAux m cs false []

/-- Modelled from the spec: per-Segment step of the Message Compiler
(§4.3) — substitute the Segment's placeholders, trim the resulting
whitespace, and emit a Message; Segments that resolve to empty content are
dropped. The compiler source is not under `src/`. -/
def compileSeg (vals : List (String × String)) (s : Segment) : List Message :=
  let c := strTrim ⟨substitute s.raw_text.data vals⟩
  if c = "" then [] else [⟨s.role, c⟩]

/-- Modelled from the spec: `compile(segments, resolved_values)` (§4.3) —
the ordered Messages of the compiled Segments. -/
def compileSegments : List Segment → List (String × String) → List Message
  | [], _ => []
  | s :: ss, vals => compileSeg vals s ++ compileSegments ss vals

/-- Modelled from the spec: pass-through compilation of a caller-supplied
pre-built Message list (§4.3) — the list is returned unchanged after every
role value is validated against the recognized set; the first invalid role
is a fatal format error. The compiler source is not under `src/`. -/
def compileDirect : List Message → Except TemplateError (List Message)
  | [] => .ok []
  | m :: ms =>
    if recognizedRoleNames.contains m.role then
      match compileDirect ms with
      | .error e => .error e
      | .ok rest => .ok (m :: rest)
    else .error (.templateFormatError m.role)

/-- Resolve and substitute the placeholders of a text against the bindings. -/
def formatText (text : String) (b : List (String × Value)) :
    Except TemplateError String :=
  match resolveAll (extractVars text) b with
  | .error e => .error e
  | .ok vals => .ok ⟨substitute text.data vals⟩

/-- Modelled from the spec: the string form of a prompt (`format_template`)
— the trimmed template with every placeholder substituted from the
bindings, role markers retained verbatim. Pinned by
`tests/core/base/_utils/test_format_template.py` and the `str(prompt)`
assertions of `tests/base/test_prompts.py`; the implementation is not
under `src/`. -/
def formatTemplate (template : String) (b : List (String × Value)) :
    Except TemplateError String :=
  formatText (strTrim template) b

/-- Modelled from the spec: the full parse→resolve→compile pipeline (§2,
§4) producing the ordered role-tagged Message list, as exercised by
`BasePrompt.messages()` in `tests/base/test_prompts.py`; the implementation
is not under `src/`. -/
def messages (template : String) (b : List (String × Value)) :
    Except TemplateError (List Message) :=
  match parse template with
  | .error e => .error e
  | .ok segs =>
    match resolveAll (extractVars template) b with
    | .error e => .error e
    | .ok vals => .ok (compileSegments segs vals)

/-! ### Helper lemmas about trimming, line splitting and scanning -/

/-- Dropping a prefix by `p` twice is the same as dropping it once. -/
lemma dropWhile_dropWhile (p : Char → Bool) (l : List Char) :
    List.dropWhile p (List.dropWhile p l) = List.dropWhile p l := by
  induction l with
  | nil => rfl
  | cons c cs ih =>
    by_cases h : p c = true
    · rw [List.dropWhile_cons_of_pos h, ih]
    · rw [List.dropWhile_cons_of_neg h, List.dropWhile_cons_of_neg h]

/-- The head of `dropWhile p l`, when present, fails `p`. -/
lemma head_dropWhile_false (p : Char → Bool) (l : List Char) :
    ∀ c, (List.dropWhile p l).head? = some c → p c = false := by
  induction l with
  | nil => intro c h; simp [List.dropWhile] at h
  | cons a as ih =>
    intro c h
    by_cases ha : p a = true
    · rw [List.dropWhile_cons_of_pos ha] at h
      exact ih c h
    · rw [List.dropWhile_cons_of_neg ha] at h
      simp only [List.head?_cons, Option.some.injEq] at h
      subst h
      simpa using ha

/-- `dropWhile` is the identity when the head (if any) fails `p`. -/
lemma dropWhile_eq_self_of_head (p : Char → Bool) (l : List Char)
    (h : ∀ c, l.head? = some c → p c = false) : List.dropWhile p l = l := by
  cases l with
  | nil => rfl
  | cons a as =>
    have := h a rfl
    rw [List.dropWhile_cons_of_neg (by simp [this])]

/-- `dropWhile` keeps the last element: it removes only a prefix. -/
lemma getLast?_dropWhile (p : Char → Bool) (l : List Char)
    (h : List.dropWhile p l ≠ []) :
    (List.dropWhile p l).getLast? = l.getLast? := by
  induction l with
  | nil => simp [List.dropWhile] at h
  | cons a as ih =>
    by_cases hpa : p a = true
    · rw [List.dropWhile_cons_of_pos hpa] at h ⊢
      have has : as ≠ [] := by
        intro e; subst e; simp [List.dropWhile] at h
      rw [ih h]
      cases as with
      | nil => exact absurd rfl has
      | cons b bs => rw [List.getLast?_cons_cons]
    · rw [List.dropWhile_cons_of_neg hpa]

/-- Trimming is idempotent. -/
lemma trimChars_idem (cs : List Char) : trimChars (trimChars cs) = trimChars cs := by
  unfold trimChars
  have h1 : List.dropWhile isWspace
      ((List.dropWhile isWspace (List.dropWhile isWspace cs).reverse).reverse)
      = (List.dropWhile isWspace (List.dropWhile isWspace cs).reverse).reverse := by
    apply dropWhile_eq_self_of_head
    intro c hc
    rw [List.head?_reverse] at hc
    by_cases hB : List.dropWhile isWspace (List.dropWhile isWspace cs).reverse = []
    · rw [hB] at hc; simp at hc
    · rw [getLast?_dropWhile _ _ hB, List.getLast?_reverse] at hc
      exact head_dropWhile_false _ _ c hc
  rw [h1, List.reverse_reverse, dropWhile_dropWhile]

/-- Every character of the trimmed list occurs in the original list. -/
lemma mem_trimChars {c : Char} {cs : List Char} (h : c ∈ trimChars cs) : c ∈ cs := by
  unfold trimChars at h
  rw [List.mem_reverse] at h
  have h2 := (List.dropWhile_sublist (l := (List.dropWhile isWspace cs).reverse)
    isWspace).subset h
  rw [List.mem_reverse] at h2
  exact (List.dropWhile_sublist (l := cs) isWspace).subset h2

/-- Splitting into lines never yields an empty list of lines. -/
lemma splitLinesChars_ne_nil (cs : List Char) : splitLinesChars cs ≠ [] := by
  cases cs with
  | nil => simp [splitLinesChars]
  | cons c cs =>
    rw [show splitLinesChars (c :: cs) = consLine c (splitLinesChars cs) from rfl]
    cases h : splitLinesChars cs with
    | nil => simp [consLine]
    | cons l ls =>
      by_cases hc : c = '\n' <;> simp [consLine, hc]

/-- Prepending a character to the first line commutes with joining. -/
lemma joinLines_cons_cons (c : Char) (l : List Char) (ls : List (List Char)) :
    joinLinesChars ((c :: l) :: ls) = c :: joinLinesChars (l :: ls) := by
  cases ls <;> rfl

/-- Joining the split lines reconstructs the original character list:
line splitting neither drops nor duplicates text. -/
lemma joinLines_splitLines (cs : List Char) :
    joinLinesChars (splitLinesChars cs) = cs := by
  induction cs with
  | nil => rfl
  | cons c cs ih =>
    rw [show splitLinesChars (c :: cs) = consLine c (splitLinesChars cs) from rfl]
    cases h : splitLinesChars cs with
    | nil => exact absurd h (splitLinesChars_ne_nil cs)
    | cons l ls =>
      by_cases hc : c = '\n'
      · subst hc
        rw [show consLine '\n' (l :: ls) = [] :: l :: ls from by simp [consLine]]
        rw [show joinLinesChars ([] :: l :: ls) = '\n' :: joinLinesChars (l :: ls) from rfl]
        rw [← h, ih]
      · rw [show consLine c (l :: ls) = (c :: l) :: ls from by simp [consLine, hc]]
        rw [joinLines_cons_cons, ← h, ih]

/-- A text without an opening brace contains no placeholders. -/
lemma extractAux_no_brace (cs : List Char) (h : '{' ∉ cs) :
    extractAux cs false [] = [] := by
  induction cs with
  | nil => rfl
  | cons c cs ih =>
    have hc : ¬ c = '{' := fun e => h (e ▸ List.mem_cons_self c cs)
    rw [show extractAux (c :: cs) false [] =
        (if c = '{' then extractAux cs true [] else extractAux cs false []) from rfl,
      if_neg hc]
    exact ih (fun hm => h (List.mem_cons_of_mem c hm))

/-- Substitution is the identity on a text without an opening brace. -/
lemma substAux_no_brace (m : List (String × String)) (cs : List Char) (h : '{' ∉ cs) :
    substAux m cs false [] = cs := by
  induction cs with
  | nil => rfl
  | cons c cs ih =>
    have hc : ¬ c = '{' := fun e => h (e ▸ List.mem_cons_self c cs)
    rw [show substAux m (c :: cs) false [] =
        (if c = '{' then substAux m cs true [] else c :: substAux m cs false []) from rfl,
      if_neg hc, ih (fun hm => h (List.mem_cons_of_mem c hm))]

/-- Scan equation: a plain line appends to the current segment. -/
lemma parseLinesAux_cons_plain {ln : List Char} (rest : List (List Char))
    (role : String) (cur : List (List Char)) (imp : Bool)
    (h : classifyLine ln = LineKind.plain) :
    parseLinesAux (ln :: rest) role cur imp = parseLinesAux rest role (cur ++ [ln]) imp := by
  conv_lhs => rw [parseLinesAux]
  rw [h]

/-- Scan equation: a malformed marker line aborts with a format error. -/
lemma parseLinesAux_cons_bad {ln : List Char} {w : String} (rest : List (List Char))
    (role : String) (cur : List (List Char)) (imp : Bool)
    (h : classifyLine ln = LineKind.badMarker w) :
    parseLinesAux (ln :: rest) role cur imp = .error (.templateFormatError w) := by
  conv_lhs => rw [parseLinesAux]
  rw [h]

/-- Scan equation: a recognized marker line closes the current segment and
starts a new one. -/
lemma parseLinesAux_cons_marker {ln : List Char} {r : String} {first : List Char}
    (rest : List (List Char)) (role : String) (cur : List (List Char)) (imp : Bool)
    (h : classifyLine ln = LineKind.marker r first) :
    parseLinesAux (ln :: rest) role cur imp =
      match parseLinesAux rest r [first] false with
      | .error e => .error e
      | .ok tail => .ok (closeSeg role cur imp ++ tail) := by
  conv_lhs => rw [parseLinesAux]
  rw [h]

/-- When every line is plain content, the scan accumulates all of them
into the single implicit leading "user" segment. -/
lemma parseLinesAux_all_plain (lines : List (List Char)) :
    ∀ role cur, (∀ ln ∈ lines, classifyLine ln = LineKind.plain) →
      parseLinesAux lines role cur true = .ok (closeSeg role (cur ++ lines) true) := by
  induction lines with
  | nil => intro role cur _; simp [parseLinesAux]
  | cons ln rest ih =>
    intro role cur h
    have hln : classifyLine ln = LineKind.plain := h ln (List.mem_cons_self ln rest)
    have hrest : ∀ l ∈ rest, classifyLine l = LineKind.plain :=
      fun l hl => h l (List.mem_cons_of_mem ln hl)
    rw [parseLinesAux_cons_plain rest role cur true hln, ih role (cur ++ [ln]) hrest,
      List.append_assoc, List.singleton_append]

/-- A template all of whose lines are plain content parses to the single
trimmed "user" segment, or to no segment at all when it trims to empty. -/
lemma parse_all_plain (t : String)
    (h : ∀ ln ∈ splitLinesChars t.data, classifyLine ln = LineKind.plain) :
    parse t = .ok (if strTrim t = "" then [] else [⟨"user", strTrim t⟩]) := by
  unfold parse
  rw [parseLinesAux_all_plain _ _ _ h, List.nil_append]
  unfold closeSeg
  rw [show mkText (splitLinesChars t.data) = strTrim t from by
    unfold mkText strTrim; rw [joinLines_splitLines]]
  by_cases he : strTrim t = ""
  · rw [if_pos ⟨rfl, he⟩, if_pos he]
  · rw [if_neg (fun hc => he hc.2), if_neg he]

/-- Any malformed role-marker line anywhere in the input aborts the scan
with a `TemplateFormatError`. -/
lemma parseLinesAux_bad (lines : List (List Char)) :
    ∀ role cur imp, (∃ ln ∈ lines, isBadLine ln = true) →
      ∃ w, parseLinesAux lines role cur imp = .error (.templateFormatError w) := by
  induction lines with
  | nil => intro _ _ _ h; simp at h
  | cons ln rest ih =>
    intro role cur imp h
    rcases h with ⟨l, hl, hbad⟩
    cases hc : classifyLine ln with
    | badMarker w => exact ⟨w, parseLinesAux_cons_bad rest role cur imp hc⟩
    | marker r first =>
      have hlr : l ∈ rest := by
        rcases List.mem_cons.mp hl with he | hr
        · subst he; rw [isBadLine, hc] at hbad; simp at hbad
        · exact hr
      obtain ⟨w, hw⟩ := ih r [first] false ⟨l, hlr, hbad⟩
      refine ⟨w, ?_⟩
      rw [parseLinesAux_cons_marker rest role cur imp hc, hw]
    | plain =>
      have hlr : l ∈ rest := by
        rcases List.mem_cons.mp hl with he | hr
        · subst he; rw [isBadLine, hc] at hbad; simp at hbad
        · exact hr
      obtain ⟨w, hw⟩ := ih role (cur ++ [ln]) imp ⟨l, hlr, hbad⟩
      exact ⟨w, by rw [parseLinesAux_cons_plain rest role cur imp hc, hw]⟩

/-- Path resolution depends on the bindings only through lookup. -/
lemma resolvePath_congr {b₁ b₂ : List (String × Value)}
    (h : ∀ k, b₁.lookup k = b₂.lookup k) (parts : List String) :
    resolvePath b₁ parts = resolvePath b₂ parts := by
  cases parts with
  | nil => rfl
  | cons n ks =>
    show (match b₁.lookup n with
          | none => none
          | some v => lookupValue v ks) =
         (match b₂.lookup n with
          | none => none
          | some v => lookupValue v ks)
    rw [h n]

/-- Variable resolution depends on the bindings only through lookup. -/
lemma resolveVar_congr {b₁ b₂ : List (String × Value)}
    (h : ∀ k, b₁.lookup k = b₂.lookup k) (v : String × Option String) :
    resolveVar b₁ v = resolveVar b₂ v := by
  unfold resolveVar
  rw [resolvePath_congr h]

/-- Resolving a variable list depends on the bindings only through lookup. -/
lemma resolveAll_congr {b₁ b₂ : List (String × Value)}
    (h : ∀ k, b₁.lookup k = b₂.lookup k) (vars : List (String × Option String)) :
    resolveAll vars b₁ = resolveAll vars b₂ := by
  induction vars with
  | nil => rfl
  | cons v vs ih =>
    show (match resolveVar b₁ v with
          | Except.error e => Except.error e
          | Except.ok r =>
            match resolveAll vs b₁ with
            | Except.error e => Except.error e
            | Except.ok rest => Except.ok ((varKey v, r) :: rest)) =
         (match resolveVar b₂ v with
          | Except.error e => Except.error e
          | Except.ok r =>
            match resolveAll vs b₂ with
            | Except.error e => Except.error e
            | Except.ok rest => Except.ok ((varKey v, r) :: rest))
    rw [resolveVar_congr h, ih]

/-! ### Claim theorems -/

/-- C1: for the template "SYSTEM: system message\nUSER: user message about
{topic}" with bindings topic ↦ "testing", the parse→resolve→compile pipeline
returns exactly two Messages in template order — ("system", "system message")
then ("user", "user message about testing") — and parsing places each
Segment boundary exactly at the recognized role-marker lines, duplicating
and dropping no text: the two raw texts are exactly the per-marker line
contents. -/
theorem C1_pipeline :
    parse "SYSTEM: system message\nUSER: user message about {topic}"
      = .ok [⟨"system", "system message"⟩, ⟨"user", "user message about {topic}"⟩]
    ∧ messages "SYSTEM: system message\nUSER: user message about {topic}"
        [("topic", Value.str "testing")]
      = .ok [⟨"system", "system message"⟩, ⟨"user", "user message about testing"⟩] :=
  ⟨rfl, rfl⟩

/-- C2: every template containing a line whose leading all-caps-word-plus-
colon prefix is not in the recognized role set fails to parse with a
`TemplateFormatError`; an unrecognized role marker is never silently
treated as content. -/
theorem C2_bad_marker_fails (t : String)
    (h : ∃ ln ∈ splitLinesChars t.data, isBadLine ln = true) :
    ∃ w, parse t = .error (.templateFormatError w) :=
  parseLinesAux_bad (splitLinesChars t.data) "user" [] true h

/-- C2 witness: the template "BAD: Bad role should throw error" of
`test_base_prompt_bad_message_role` fails with a `TemplateFormatError`. -/
theorem C2_bad_marker_fails_witness :
    ∃ w, parse "BAD: Bad role should throw error"
      = .error (.templateFormatError w) :=
  C2_bad_marker_fails "BAD: Bad role should throw error" (by decide)

/-- C3 counterexample: the empty template contains no role markers, yet
`parse` yields no Segment at all rather than one "user" Segment with the
trimmed (empty) input as raw text — the claim's universal quantification
fails at the empty template. -/
theorem C3_counterexample :
    (splitLinesChars ("" : String).data).all isPlainLine = true
    ∧ parse "" = .ok []
    ∧ ([] : List Segment).length ≠ 1 :=
  ⟨rfl, rfl, by decide⟩

/-- C3 (amended): for every template all of whose lines are plain content
(no role markers), `parse` yields exactly one Segment with role "user" and
raw_text the trimmed input whenever that trimmed input is nonempty, and no
Segment at all when the template trims to empty; end to end, the movie
template with genre ↦ "comedy" compiles to the single expected user
Message. -/
theorem C3_single_user_segment :
    (∀ t : String, (∀ ln ∈ splitLinesChars t.data, classifyLine ln = LineKind.plain) →
      parse t = .ok (if strTrim t = "" then [] else [⟨"user", strTrim t⟩]))
    ∧ messages "Please recommend a list of movies in the {genre} category."
        [("genre", Value.str "comedy")]
      = .ok [⟨"user", "Please recommend a list of movies in the comedy category."⟩] :=
  ⟨parse_all_plain, rfl⟩

/-- C3 witness: a concrete marker-free template parses to the single
trimmed "user" segment. -/
theorem C3_single_user_segment_witness :
    parse "  Single user message  "
      = .ok (if strTrim "  Single user message  " = "" then []
             else [⟨"user", strTrim "  Single user message  "⟩]) :=
  C3_single_user_segment.1 "  Single user message  " (by decide)

/-- C4: resolving a placeholder whose dotted path does not resolve in the
bindings — in particular when its top-level name is absent, or when a
dotted lookup hits a missing intermediate key — fails with
`MissingVariableError` naming the full path, and never returns a rendered
string (in particular never the empty string). -/
theorem C4_missing_variable :
    (∀ (b : List (String × Value)) (path : String) (spec : Option String),
      resolvePath b (splitPath path) = none →
        resolveVar b (path, spec) = .error (.missingVariableError path)
        ∧ ∀ s, resolveVar b (path, spec) ≠ .ok s)
    ∧ (∀ (b : List (String × Value)) (n : String) (ks : List String),
        b.lookup n = none → resolvePath b (n :: ks) = none)
    ∧ (∀ (fields : List (String × Value)) (k : String) (ks : List String),
        fields.lookup k = none → lookupValue (Value.obj fields) (k :: ks) = none) := by
  refine ⟨fun b path spec h => ?_, fun b n ks h => ?_, fun fields k ks h => ?_⟩
  · have he : resolveVar b (path, spec) = .error (.missingVariableError path) := by
      unfold resolveVar
      rw [h]
    exact ⟨he, fun s hs => by rw [he] at hs; exact Except.noConfusion hs⟩
  · show (match b.lookup n with
          | none => none
          | some v => lookupValue v ks) = none
    rw [h]
  · show (match fields.lookup k with
          | none => none
          | some v => lookupValue v ks) = none
    rw [h]

/-- C4 witness: the path "book.author" with a bindings entry "book" lacking
an "author" key fails with a `MissingVariableError` naming the full path. -/
theorem C4_missing_variable_witness :
    resolveVar [("book", Value.obj [("title", Value.str "Dune")])] ("book.author", none)
      = .error (.missingVariableError "book.author") :=
  (C4_missing_variable.1 [("book", Value.obj [("title", Value.str "Dune")])]
    "book.author" none (by rfl)).1

/-- C5 counterexample: the template "SYSTEM: hi" contains no placeholders,
yet the pipeline returns the Message ("system", "hi"), whose content "hi"
differs from the original trimmed template text "SYSTEM: hi" — the
role marker is stripped into the role, so the claim fails as stated. -/
theorem C5_counterexample :
    extractVars "SYSTEM: hi" = []
    ∧ messages "SYSTEM: hi" [] = .ok [⟨"system", "hi"⟩]
    ∧ strTrim "SYSTEM: hi" = "SYSTEM: hi"
    ∧ ("hi" : String) ≠ "SYSTEM: hi" :=
  ⟨rfl, rfl, rfl, by decide⟩

/-- C5 (amended): for every template with no placeholders and no
role-marker-like lines, and any bindings, the pipeline returns a single
"user" Message whose content exactly equals the original trimmed template
text (no Message at all if the template trims to empty): rendering without
substitution is idempotent. For templates with role markers, each
Message's content instead equals its own Segment's trimmed text. -/
theorem C5_roundtrip_no_placeholders (t : String) (b : List (String × Value))
    (hplain : ∀ ln ∈ splitLinesChars t.data, classifyLine ln = LineKind.plain)
    (hbrace : Char.ofNat 123 ∉ t.data) :
    messages t b = .ok (if strTrim t = "" then [] else [⟨"user", strTrim t⟩]) := by
  have hbrace' : '{' ∉ t.data := hbrace
  have hparse := parse_all_plain t hplain
  have hext : extractVars t = [] := extractAux_no_brace t.data hbrace'
  unfold messages
  rw [hparse, hext]
  show Except.ok (compileSegments (if strTrim t = "" then [] else [⟨"user", strTrim t⟩]) [])
      = Except.ok (if strTrim t = "" then [] else [⟨"user", strTrim t⟩])
  by_cases he : strTrim t = ""
  · rw [if_pos he, if_pos he]
    rfl
  · rw [if_neg he, if_neg he]
    have hsub : substitute (strTrim t).data [] = (strTrim t).data := by
      apply substAux_no_brace
      intro hm
      exact hbrace' (mem_trimChars hm)
    have hidem : strTrim (String.mk (strTrim t).data) = strTrim t := by
      show String.mk (trimChars (trimChars t.data)) = String.mk (trimChars t.data)
      rw [trimChars_idem]
    have hcs : compileSeg [] (⟨"user", strTrim t⟩ : Segment)
        = [(⟨"user", strTrim t⟩ : Message)] := by
      show (if strTrim (String.mk (substitute (strTrim t).data [])) = ""
            then ([] : List Message)
            else [⟨"user", strTrim (String.mk (substitute (strTrim t).data []))⟩])
          = [(⟨"user", strTrim t⟩ : Message)]
      rw [hsub, hidem, if_neg he]
    show Except.ok (compileSeg [] (⟨"user", strTrim t⟩ : Segment) ++ [])
        = Except.ok [(⟨"user", strTrim t⟩ : Message)]
    rw [hcs, List.append_nil]

/-- C5 witness: a concrete placeholder-free, marker-free template renders
to exactly its trimmed text. -/
theorem C5_roundtrip_no_placeholders_witness :
    messages "  Recommend a fantasy book.  " []
      = .ok (if strTrim "  Recommend a fantasy book.  " = "" then []
             else [⟨"user", strTrim "  Recommend a fantasy book.  "⟩]) :=
  C5_roundtrip_no_placeholders "  Recommend a fantasy book.  " [] (by decide) (by decide)

/-- C6: a sequence-valued binding renders as the ", "-joined string of its
rendered elements — bindings tags ↦ ["a","b","c"] with template
"Tags: {tags}" render end to end to "Tags: a, b, c" — while strings render
verbatim, integers via their default string conversion, and None as the
empty string absent a format-spec override. -/
theorem C6_sequence_rendering :
    formatText "Tags: {tags}"
        [("tags", Value.seq [Value.str "a", Value.str "b", Value.str "c"])]
      = .ok "Tags: a, b, c"
    ∧ (∀ s, render (Value.str s) = s)
    ∧ (∀ items, render (Value.seq items)
        = String.intercalate ", " (items.map renderScalar))
    ∧ (∀ i, render (Value.int i) = toString i)
    ∧ render Value.null = ""
    ∧ renderWithSpec none Value.null = "" :=
  ⟨rfl, fun _ => rfl, fun _ => rfl, fun _ => rfl, rfl, rfl⟩

/-- C7: a caller-supplied pre-built Message list whose every role is in the
recognized set passes through the compiler unchanged — same roles, same
contents, same order — while a list containing any unrecognized role fails
validation with a `TemplateFormatError`. -/
theorem C7_passthrough :
    (∀ msgs : List Message,
      (∀ m ∈ msgs, recognizedRoleNames.contains m.role = true) →
        compileDirect msgs = .ok msgs)
    ∧ (∀ msgs : List Message, ∀ m ∈ msgs,
        recognizedRoleNames.contains m.role = false →
          ∃ r, compileDirect msgs = .error (.templateFormatError r)) := by
  constructor
  · intro msgs h
    induction msgs with
    | nil => rfl
    | cons m ms ih =>
      have hm : recognizedRoleNames.contains m.role = true :=
        h m (List.mem_cons_self m ms)
      have hrest := ih (fun x hx => h x (List.mem_cons_of_mem m hx))
      show (if recognizedRoleNames.contains m.role then
              match compileDirect ms with
              | Except.error e => Except.error e
              | Except.ok rest => Except.ok (m :: rest)
            else Except.error (.templateFormatError m.role)) = Except.ok (m :: ms)
      rw [if_pos hm, hrest]
  · intro msgs
    induction msgs with
    | nil => intro m hm; exact absurd hm (List.not_mem_nil m)
    | cons m0 ms ih =>
      intro m hm hbad
      show ∃ r, (if recognizedRoleNames.contains m0.role then
              match compileDirect ms with
              | Except.error e => Except.error e
              | Except.ok rest => Except.ok (m0 :: rest)
            else Except.error (.templateFormatError m0.role))
          = .error (.templateFormatError r)
      by_cases h0 : recognizedRoleNames.contains m0.role = true
      · rw [if_pos h0]
        have hm' : m ∈ ms := by
          rcases List.mem_cons.mp hm with he | hr
          · subst he; rw [h0] at hbad; exact absurd hbad (by simp)
          · exact hr
        obtain ⟨r, hr⟩ := ih m hm' hbad
        rw [hr]
        exact ⟨r, rfl⟩
      · rw [if_neg h0]
        exact ⟨m0.role, rfl⟩

/-- C7 witness: the pre-built single-user-message list of the bedrock
`extract_book` example passes through unchanged. -/
theorem C7_passthrough_witness :
    compileDirect [⟨"user", "Extract The Name of the Wind by Patrick Rothfuss"⟩]
      = .ok [⟨"user", "Extract The Name of the Wind by Patrick Rothfuss"⟩] :=
  C7_passthrough.1 [⟨"user", "Extract The Name of the Wind by Patrick Rothfuss"⟩]
    (by decide)

/-- C8: the resolve-and-format step is deterministic — for every template,
two bindings that agree as lookup mappings (in particular, two runs on the
same template and equal bindings) produce the identical rendered result;
the output depends on nothing but the template text and the bindings'
lookup behaviour. -/
theorem C8_deterministic (t : String) (b₁ b₂ : List (String × Value))
    (h : ∀ k, b₁.lookup k = b₂.lookup k) :
    formatTemplate t b₁ = formatTemplate t b₂ := by
  unfold formatTemplate formatText
  rw [resolveAll_congr h]

/-- C8 witness: reordering the bindings list leaves the rendered string
unchanged. -/
theorem C8_deterministic_witness :
    formatTemplate "{a} and {b}" [("a", Value.str "x"), ("b", Value.str "y")]
      = formatTemplate "{a} and {b}" [("b", Value.str "y"), ("a", Value.str "x")] := by
  apply C8_deterministic
  intro k
  by_cases h1 : k = "a"
  · subst h1; rfl
  · by_cases h2 : k = "b"
    · subst h2; rfl
    · have e1 : (k == "a") = false := beq_eq_false_iff_ne.mpr h1
      have e2 : (k == "b") = false := beq_eq_false_iff_ne.mpr h2
      show List.lookup k [("a", Value.str "x"), ("b", Value.str "y")]
          = List.lookup k [("b", Value.str "y"), ("a", Value.str "x")]
      simp only [List.lookup, e1, e2]

/-- C9: parsing the empty template string produces an empty sequence of
Segments and an empty Message list, not a single "user" Segment with empty
content. -/
theorem C9_empty_template :
    parse "" = .ok []
    ∧ messages "" [] = .ok []
    ∧ ([] : List Segment) ≠ [⟨"user", ""⟩] :=
  ⟨rfl, rfl, by decide⟩

/-- C10: the string form of a prompt substitutes the placeholders of the
trimmed template while retaining the role markers verbatim — for the
SYSTEM/USER template with topic ↦ "testing" it is exactly
"SYSTEM: system message\nUSER: user message about testing" — whereas the
messages pipeline strips the markers into roles. -/
theorem C10_str_form :
    formatTemplate "\nSYSTEM: system message\nUSER: user message about {topic}\n"
        [("topic", Value.str "testing")]
      = .ok "SYSTEM: system message\nUSER: user message about testing"
    ∧ messages "\nSYSTEM: system message\nUSER: user message about {topic}\n"
        [("topic", Value.str "testing")]
      = .ok [⟨"system", "system message"⟩, ⟨"user", "user message about testing"⟩] :=
  ⟨rfl, rfl⟩

end Mirascope
